import Mathlib

/-!
Shallow embedding of the resilience layer of the `ambeo_soundbar` integration:
`api/client.py` (`CircuitBreaker`, `RateLimiter`, `AmbeoApiClient.request`),
`coordinator.py` (`AmbeoDataUpdateCoordinator`) and `api/models.py`
(`VolumeInfo`).  Machine time (`time.monotonic`, `datetime.now`) is modelled
as exact rational instants, and `asyncio.sleep d` is modelled as advancing
time by exactly `d`.
-/

namespace Ambeo

/-- `ConnectionState` from `api/models.py`. -/
inductive ConnectionState
  | connected
  | disconnected
  | error
  | rateLimited
deriving DecidableEq, Repr

/-- `VolumeInfo` from `api/models.py` (ints stay integers; `step`/ratios are
exact rationals standing for Python floats). -/
structure VolumeInfo where
  level : ℤ
  muted : Bool
  min_value : ℤ := 0
  max_value : ℤ := 100
  step : ℚ := 1 / 100
deriving DecidableEq, Repr

/-- `VolumeInfo.percent` from `api/models.py`: guard against equal bounds,
otherwise `(level - min_value) / (max_value - min_value)`. -/
def VolumeInfo.percent (v : VolumeInfo) : ℚ :=
  if v.max_value = v.min_value then 0
  else ((v.level - v.min_value : ℤ) : ℚ) / ((v.max_value - v.min_value : ℤ) : ℚ)

/-- Checked division on ℚ: `none` models a Python `ZeroDivisionError`. -/
def qdivChecked (a b : ℚ) : Option ℚ :=
  if b = 0 then none else some (a / b)

/-- `VolumeInfo.percent` re-run with checked division, to show the division
by zero can never be reached. -/
def VolumeInfo.percentChecked (v : VolumeInfo) : Option ℚ :=
  if v.max_value = v.min_value then some 0
  else qdivChecked ((v.level - v.min_value : ℤ) : ℚ) ((v.max_value - v.min_value : ℤ) : ℚ)

/-- The Python exceptions that can flow through
`AmbeoDataUpdateCoordinator._async_update_data` in `coordinator.py`:
the integration's `AmbeoAuthError` / `AmbeoConnectionError`, any other
`Exception`, and the host-framework failures `ConfigEntryAuthFailed` /
`UpdateFailed`. -/
inductive PyExc
  | ambeoAuth
  | ambeoConn
  | otherExc
  | configEntryAuthFailed
  | updateFailed
deriving DecidableEq, Repr

/-- `isinstance(e, AmbeoAuthError)`; `ConfigEntryAuthFailed` and `UpdateFailed`
are `HomeAssistantError` subclasses unrelated to `AmbeoAuthError`. -/
def PyExc.isAmbeoAuthError : PyExc → Bool
  | .ambeoAuth => true
  | _ => false

/-- `isinstance(e, AmbeoConnectionError)`. -/
def PyExc.isAmbeoConnError : PyExc → Bool
  | .ambeoConn => true
  | _ => false

/-- One entry of the `asyncio.gather(..., return_exceptions=True)` result in
`_async_update_data`: either the fetched value or the exception object the
fetch raised. -/
inductive FetchResult (V : Type)
  | value (v : V)
  | exc (e : PyExc)
deriving DecidableEq, Repr

/-- The value a fetch result contributes to the coordinator data dict
(`None` for a captured exception). -/
def FetchResult.toOption {V : Type} : FetchResult V → Option V
  | .value v => some v
  | .exc _ => none

/-- Whether a gather slot holds a captured `AmbeoAuthError`. -/
def FetchResult.isAuthExc {V : Type} : FetchResult V → Bool
  | .value _ => false
  | .exc e => e.isAmbeoAuthError

/-- The `keys` list of `_async_update_data` in `coordinator.py`, in source
order. -/
def ambeoKeys : List String :=
  ["volume", "mute", "power_state", "source", "preset", "ambeo_mode",
   "night_mode", "sound_feedback", "bluetooth_pairing", "logo_state",
   "led_bar_brightness", "subwoofer", "voice_enhancement",
   "codec_led_brightness", "display_brightness", "eco_mode"]

/-- The `for key, result in zip(keys, results)` loop of `_async_update_data`:
a captured `AmbeoAuthError` raises `ConfigEntryAuthFailed`; any other captured
exception stores `None` under its key; a value is stored as is. -/
def processResults {V : Type} : List (String × FetchResult V) →
    Except PyExc (List (String × Option V))
  | [] => .ok []
  | (k, .value v) :: rest =>
      (processResults rest).map (fun d => (k, some v) :: d)
  | (k, .exc e) :: rest =>
      if e.isAmbeoAuthError then .error .configEntryAuthFailed
      else (processResults rest).map (fun d => (k, none) :: d)

/-- `AmbeoDataUpdateCoordinator._async_update_data` from `coordinator.py`:
the gather results are zipped with `keys` (`strict=False`, so `zip`
truncates), the loop above runs inside the `try` block, and the
`except AmbeoAuthError` / `except AmbeoConnectionError` / `except Exception`
chain translates whatever escapes the `try` body. -/
def asyncUpdateData {V : Type} (results : List (FetchResult V)) :
    Except PyExc (List (String × Option V)) :=
  match processResults (ambeoKeys.zip results) with
  | .ok d => .ok d
  | .error e =>
      if e.isAmbeoAuthError then .error .configEntryAuthFailed
      else if e.isAmbeoConnError then .error .updateFailed
      else .error .updateFailed

/-- `UPDATE_INTERVAL = timedelta(seconds=30)` from `coordinator.py`. -/
def UPDATE_INTERVAL : ℚ := 30

/-- The coordinator state visible in `coordinator.py`: the polling interval
handed to the host base class at `__init__` (never reassigned anywhere in the
integration) and the last fetched data dict. -/
structure AmbeoDataUpdateCoordinator (V : Type) where
  update_interval : ℚ
  data : List (String × Option V)
deriving DecidableEq, Repr

/-- `AmbeoDataUpdateCoordinator.__init__`: the base class is constructed with
`update_interval=UPDATE_INTERVAL` and no data yet. -/
def AmbeoDataUpdateCoordinator.init {V : Type} : AmbeoDataUpdateCoordinator V :=
  { update_interval := UPDATE_INTERVAL, data := [] }

/-- One coordinator refresh: run `_async_update_data` on the fetch results and
store the returned dict.  No field other than `data` is touched. -/
def coordinatorRefresh {V : Type} (c : AmbeoDataUpdateCoordinator V)
    (results : List (FetchResult V)) :
    Except PyExc (AmbeoDataUpdateCoordinator V) :=
  (asyncUpdateData results).map (fun d => { c with data := d })

/-- A refresh result set describing a device that is powered on and playing. -/
def resultsPlaying : List (FetchResult String) :=
  [.value "40", .value "false", .value "on", .value "hdmi", .value "music",
   .value "true", .value "false", .value "true", .value "false", .value "80",
   .value "60", .value "present", .value "off", .value "50", .value "70",
   .value "false"]

/-- The same refresh with the device in standby (`power_state` differs). -/
def resultsStandby : List (FetchResult String) :=
  [.value "40", .value "false", .value "standby", .value "hdmi", .value "music",
   .value "true", .value "false", .value "true", .value "false", .value "80",
   .value "60", .value "present", .value "off", .value "50", .value "70",
   .value "false"]

/-- The gather results of a refresh in which the first fetch (`get_volume`)
raised `AmbeoAuthError` and every other fetch succeeded. -/
def resultsAuthFailure : List (FetchResult ℤ) :=
  .exc .ambeoAuth :: List.replicate 15 (.value 0)

/-- `CircuitBreaker` from `api/client.py`.  `_failure_count`,
`_last_failure_time` and `_state` are the mutable fields; failure times are
rational instants standing for `datetime.now()`. -/
structure CircuitBreaker where
  failure_threshold : ℕ := 5
  timeout_seconds : ℚ := 120
  failure_count : ℕ := 0
  last_failure_time : Option ℚ := none
  state : ConnectionState := .connected
deriving DecidableEq, Repr

/-- `CircuitBreaker.is_open` read at instant `now`.  The property mutates the
breaker when the cool-down has elapsed, so the model returns the Boolean
together with the breaker that results from the read. -/
def CircuitBreaker.is_open (cb : CircuitBreaker) (now : ℚ) :
    Bool × CircuitBreaker :=
  if cb.state = ConnectionState.error then
    match cb.last_failure_time with
    | some t =>
        if cb.timeout_seconds ≤ now - t then
          (false, { cb with state := .connected, failure_count := 0,
                            last_failure_time := none })
        else (true, cb)
    | none => (true, cb)
  else (false, cb)

/-- `CircuitBreaker.record_success`. -/
def CircuitBreaker.record_success (cb : CircuitBreaker) : CircuitBreaker :=
  if 0 < cb.failure_count then
    { cb with failure_count := 0, state := .connected,
              last_failure_time := none }
  else cb

/-- `CircuitBreaker.record_failure` at instant `now`. -/
def CircuitBreaker.record_failure (cb : CircuitBreaker) (now : ℚ) :
    CircuitBreaker :=
  let cb1 := { cb with failure_count := cb.failure_count + 1,
                       last_failure_time := some now }
  if cb.failure_threshold ≤ cb1.failure_count then
    { cb1 with state := .error }
  else cb1

/-- A sequence of `record_failure` calls at the given instants. -/
def CircuitBreaker.recordFailures (cb : CircuitBreaker) (ts : List ℚ) :
    CircuitBreaker :=
  ts.foldl CircuitBreaker.record_failure cb

/-- One circuit-breaker interaction: a failed request recorded at some
instant, or a successful one. -/
inductive BreakerEvent
  | fail (t : ℚ)
  | success
deriving DecidableEq, Repr

/-- Run a list of breaker events left to right. -/
def CircuitBreaker.applyEvents (cb : CircuitBreaker) (evs : List BreakerEvent) :
    CircuitBreaker :=
  evs.foldl
    (fun c e => match e with
      | .fail t => c.record_failure t
      | .success => c.record_success) cb

/-- `failRunsBelow n evs k` holds when, continuing a run of `k` consecutive
failures already recorded, every run of consecutive `fail` events in `evs`
stays strictly below `n`. -/
def failRunsBelow (n : ℕ) : List BreakerEvent → ℕ → Prop
  | [], _ => True
  | .fail _ :: rest, k => k + 1 < n ∧ failRunsBelow n rest (k + 1)
  | .success :: rest, _ => failRunsBelow n rest 0

/-- Every maximal run of consecutive `fail` events is shorter than `n`. -/
def FailRunsBelow (n : ℕ) (evs : List BreakerEvent) : Prop :=
  failRunsBelow n evs 0

/-- `RateLimiter` from `api/client.py`; the deque of monotonic-clock
timestamps becomes a list of rational instants. -/
structure RateLimiter where
  max_calls : ℕ := 10
  period_seconds : ℚ := 1
  timestamps : List ℚ := []
deriving DecidableEq, Repr

/-- `RateLimiter.current_count` at instant `now`: timestamps strictly inside
the trailing window. -/
def RateLimiter.current_count (rl : RateLimiter) (now : ℚ) : ℕ :=
  rl.timestamps.countP (fun t => decide (now - rl.period_seconds < t))

/-- `RateLimiter.acquire` called at instant `now`.  Stale timestamps are
popped from the front, a full window sleeps until the oldest timestamp plus
the period (the sleep is modelled as exact), and the effective instant is
appended.  The result is the new limiter state and the instant at which the
call returns; `none` models the `IndexError` of `self._timestamps[0]` on an
empty deque (reachable only with `max_calls = 0`). -/
def RateLimiter.acquire (rl : RateLimiter) (now : ℚ) :
    Option (RateLimiter × ℚ) :=
  let cutoff := now - rl.period_seconds
  let ts1 := rl.timestamps.dropWhile (fun t => decide (t < cutoff))
  if rl.max_calls ≤ ts1.length then
    match ts1 with
    | [] => none
    | oldest :: _ =>
        let wait := oldest + rl.period_seconds - now
        if 0 < wait then
          let now2 := now + wait
          let cutoff2 := now2 - rl.period_seconds
          let ts2 := ts1.dropWhile (fun t => decide (t < cutoff2))
          some ({ rl with timestamps := ts2 ++ [now2] }, now2)
        else
          some ({ rl with timestamps := ts1 ++ [now] }, now)
  else
    some ({ rl with timestamps := ts1 ++ [now] }, now)

/-- The state the limiter's timestamp list must satisfy between calls, `ret`
being the instant the previous `acquire` returned: timestamps are ordered,
none lies in the future, and at most `max_calls` of them are inside the
trailing window. -/
def RateLimiter.Inv (rl : RateLimiter) (ret : ℚ) : Prop :=
  rl.timestamps.Pairwise (· ≤ ·) ∧ (∀ x ∈ rl.timestamps, x ≤ ret) ∧
    rl.current_count ret ≤ rl.max_calls

/-- `CallsValid rl ret times`: each call instant comes strictly after the
previous `acquire` returned (a strictly monotonic clock). -/
def RateLimiter.CallsValid (rl : RateLimiter) (ret : ℚ) : List ℚ → Prop
  | [] => True
  | t :: rest => ret < t ∧
      ∀ s, rl.acquire t = some s → RateLimiter.CallsValid s.1 s.2 rest

/-- `AcquiresOK rl times`: every `acquire` in the sequence succeeds (the call
is delayed, never rejected) and, at the instant it returns, at most
`max_calls` timestamps lie inside the trailing window. -/
def RateLimiter.AcquiresOK (rl : RateLimiter) : List ℚ → Prop
  | [] => True
  | t :: rest => ∃ s, rl.acquire t = some s ∧
      s.1.current_count s.2 ≤ s.1.max_calls ∧ RateLimiter.AcquiresOK s.1 rest

/-- Thread a list of `acquire` calls, returning the final limiter state and
the final return instant. -/
def RateLimiter.runCalls (rl : RateLimiter) (ret : ℚ) :
    List ℚ → Option (RateLimiter × ℚ)
  | [] => some (rl, ret)
  | t :: rest => (rl.acquire t).bind (fun s => s.1.runCalls s.2 rest)

/-- What one iteration of the retry loop in `AmbeoApiClient.request` runs
into: a successful response, an `asyncio.TimeoutError`, an
`aiohttp.ClientError`, some other unexpected exception, or an `AmbeoError`
raised while processing the response (`_handle_response`). -/
inductive AttemptOutcome
  | success
  | timeoutErr
  | connErr
  | otherErr
  | ambeoErr
deriving DecidableEq, Repr

/-- The exceptions `AmbeoApiClient.request` can raise, with the
`retry_count` recorded in them where the source sets one. -/
inductive ReqError
  | circuitBreaker (failureCount : ℕ)
  | timeout (retryCount : ℕ)
  | connection (retryCount : ℕ)
  | unexpected (retryCount : ℕ)
  | ambeo
  | noRetries
deriving DecidableEq, Repr

/-- The `last_exception` a failed attempt `i` leaves behind. -/
def failExc (a : AttemptOutcome) (i : ℕ) : ReqError :=
  match a with
  | .timeoutErr => .timeout i
  | .connErr => .connection i
  | .otherErr => .unexpected i
  | _ => .noRetries

instance : DecidableEq (Except ReqError Unit) := fun a b =>
  match a, b with
  | .ok (), .ok () => isTrue rfl
  | .error e, .error f =>
      if h : e = f then isTrue (by rw [h])
      else isFalse (fun hh => h (by cases hh; rfl))
  | .ok _, .error _ => isFalse (fun hh => Except.noConfusion hh)
  | .error _, .ok _ => isFalse (fun hh => Except.noConfusion hh)

/-- Everything observable about one `AmbeoApiClient.request` call: the value
returned or exception raised, how many HTTP attempts were started, the
back-off sleeps performed, and the circuit-breaker / rate-limiter states the
call leaves behind. -/
structure ReqResult where
  outcome : Except ReqError Unit
  attempts : ℕ
  sleeps : List ℚ
  breaker : CircuitBreaker
  limiter : RateLimiter
deriving DecidableEq, Repr

/-- The `for attempt in range(retries)` loop of `AmbeoApiClient.request`,
driven by the outcome oracle `o`: success records a breaker success and
returns; an `AmbeoError` from response processing re-raises untouched;
timeout / connection / unexpected errors set `last_exception` and, before any
attempt but the last, sleep `retry_delay * 2 ** attempt`; an exhausted loop
records one breaker failure and raises the last exception (or the fallback
`AmbeoConnectionError`). -/
def requestGo (o : ℕ → AttemptOutcome) (d : ℚ) (retries : ℕ) (now : ℚ)
    (cb : CircuitBreaker) (rl : RateLimiter) :
    Option ReqError → ℕ → List ℚ → List ℕ → ReqResult
  | lastExc, attempts, sleeps, [] =>
      { outcome := .error (lastExc.getD .noRetries), attempts := attempts,
        sleeps := sleeps, breaker := cb.record_failure now, limiter := rl }
  | _lastExc, attempts, sleeps, i :: rest =>
      match o i with
      | .success =>
          { outcome := .ok (), attempts := attempts + 1, sleeps := sleeps,
            breaker := cb.record_success, limiter := rl }
      | .ambeoErr =>
          { outcome := .error .ambeo, attempts := attempts + 1,
            sleeps := sleeps, breaker := cb, limiter := rl }
      | .timeoutErr =>
          requestGo o d retries now cb rl (some (.timeout i)) (attempts + 1)
            (if i < retries - 1 then sleeps ++ [d * 2 ^ i] else sleeps) rest
      | .connErr =>
          requestGo o d retries now cb rl (some (.connection i)) (attempts + 1)
            (if i < retries - 1 then sleeps ++ [d * 2 ^ i] else sleeps) rest
      | .otherErr =>
          requestGo o d retries now cb rl (some (.unexpected i)) (attempts + 1)
            (if i < retries - 1 then sleeps ++ [d * 2 ^ i] else sleeps) rest

/-- `AmbeoApiClient.request` from `api/client.py` at instant `now`: an open
circuit breaker raises `AmbeoCircuitBreakerError` before anything else; then
the rate-limit slot is acquired (`none` propagates its `IndexError` edge
case) and the retry loop runs over `range(retries)` with
`retries = max_retries if retry else 1`.  Failure times inside the loop are
taken at the limiter's return instant. -/
def AmbeoApiClient.request (o : ℕ → AttemptOutcome) (max_retries : ℕ)
    (retry_delay : ℚ) (cb : CircuitBreaker) (rl : RateLimiter) (retry : Bool)
    (now : ℚ) : Option ReqResult :=
  let opn := cb.is_open now
  if opn.1 then
    some { outcome := .error (.circuitBreaker opn.2.failure_count),
           attempts := 0, sleeps := [], breaker := opn.2, limiter := rl }
  else
    match rl.acquire now with
    | none => none
    | some (rl1, ret) =>
        let retries := if retry then max_retries else 1
        some (requestGo o retry_delay retries ret opn.2 rl1 none 0 []
          (List.range retries))

/-- `Capability` from `const.py`. -/
inductive Capability
  | AMBEO_LOGO
  | LED_BAR
  | CODEC_LED
  | VOICE_ENHANCEMENT_TOGGLE
  | VOICE_ENHANCEMENT_LEVEL
  | CENTER_SPEAKER_LEVEL
  | SIDE_FIRING_LEVEL
  | UP_FIRING_LEVEL
  | RESET_EXPERT_SETTINGS
  | BLUETOOTH_PAIRING
  | SUBWOOFER
  | STANDBY
  | ECO_MODE
  | MAX_LOGO
  | MAX_DISPLAY
  | AMBEO_MODE
  | NIGHT_MODE
  | SOUND_FEEDBACK
deriving DecidableEq, Repr

/-- The device-API getters the coordinator's fetchers can await. -/
inductive ApiCall
  | getVolume
  | isMute
  | getState
  | getCurrentSource
  | getCurrentPreset
  | getAmbeoMode
  | getNightMode
  | getSoundFeedback
  | getBluetoothPairingState
  | getLogoBrightness
  | getLogoState
  | getLedBarBrightness
  | getSubwooferStatus
  | getSubwooferVolume
  | getVoiceEnhancement
  | getVoiceEnhancementLevel
  | getCodecLedBrightness
  | getDisplayBrightness
  | getEcoMode
deriving DecidableEq, Repr

/-- The shape of a fetcher's return value: a plain getter value, or the small
dicts built by the logo / subwoofer / voice-enhancement fetchers. -/
inductive FetchValue (V : Type)
  | simple (v : V)
  | logo (brightness : V) (state : V)
  | subwoofer (status : V) (volume : V)
  | voice (enabled : V) (level : Option V)
deriving DecidableEq, Repr

/-- A fetcher's behaviour: the value it returns (`none` = Python `None`) and
the device-API calls it performs, in order.  `hasCap` is the device model's
`has_capability` predicate and `api` the oracle for getter values. -/
def fetch_ambeo_mode {V : Type} (hasCap : Capability → Bool)
    (api : ApiCall → V) : Option (FetchValue V) × List ApiCall :=
  if hasCap .AMBEO_MODE then
    (some (.simple (api .getAmbeoMode)), [.getAmbeoMode])
  else (none, [])

/-- `_fetch_night_mode` from `coordinator.py`. -/
def fetch_night_mode {V : Type} (hasCap : Capability → Bool)
    (api : ApiCall → V) : Option (FetchValue V) × List ApiCall :=
  if hasCap .NIGHT_MODE then
    (some (.simple (api .getNightMode)), [.getNightMode])
  else (none, [])

/-- `_fetch_sound_feedback` from `coordinator.py`. -/
def fetch_sound_feedback {V : Type} (hasCap : Capability → Bool)
    (api : ApiCall → V) : Option (FetchValue V) × List ApiCall :=
  if hasCap .SOUND_FEEDBACK then
    (some (.simple (api .getSoundFeedback)), [.getSoundFeedback])
  else (none, [])

/-- `_fetch_bluetooth_pairing` from `coordinator.py`. -/
def fetch_bluetooth_pairing {V : Type} (hasCap : Capability → Bool)
    (api : ApiCall → V) : Option (FetchValue V) × List ApiCall :=
  if hasCap .BLUETOOTH_PAIRING then
    (some (.simple (api .getBluetoothPairingState)), [.getBluetoothPairingState])
  else (none, [])

/-- `_fetch_logo_brightness` from `coordinator.py`: gated on `AMBEO_LOGO`,
fetches both brightness and state. -/
def fetch_logo_brightness {V : Type} (hasCap : Capability → Bool)
    (api : ApiCall → V) : Option (FetchValue V) × List ApiCall :=
  if hasCap .AMBEO_LOGO then
    (some (.logo (api .getLogoBrightness) (api .getLogoState)),
     [.getLogoBrightness, .getLogoState])
  else (none, [])

/-- `_fetch_led_bar_brightness` from `coordinator.py`. -/
def fetch_led_bar_brightness {V : Type} (hasCap : Capability → Bool)
    (api : ApiCall → V) : Option (FetchValue V) × List ApiCall :=
  if hasCap .LED_BAR then
    (some (.simple (api .getLedBarBrightness)), [.getLedBarBrightness])
  else (none, [])

/-- `_fetch_subwoofer` from `coordinator.py`. -/
def fetch_subwoofer {V : Type} (hasCap : Capability → Bool)
    (api : ApiCall → V) : Option (FetchValue V) × List ApiCall :=
  if hasCap .SUBWOOFER then
    (some (.subwoofer (api .getSubwooferStatus) (api .getSubwooferVolume)),
     [.getSubwooferStatus, .getSubwooferVolume])
  else (none, [])

/-- `_fetch_voice_enhancement` from `coordinator.py`: gated on the toggle
capability; the level getter is additionally gated on the level capability. -/
def fetch_voice_enhancement {V : Type} (hasCap : Capability → Bool)
    (api : ApiCall → V) : Option (FetchValue V) × List ApiCall :=
  if hasCap .VOICE_ENHANCEMENT_TOGGLE then
    if hasCap .VOICE_ENHANCEMENT_LEVEL then
      (some (.voice (api .getVoiceEnhancement) (some (api .getVoiceEnhancementLevel))),
       [.getVoiceEnhancement, .getVoiceEnhancementLevel])
    else
      (some (.voice (api .getVoiceEnhancement) none), [.getVoiceEnhancement])
  else (none, [])

/-- `_fetch_codec_led_brightness` from `coordinator.py`. -/
def fetch_codec_led_brightness {V : Type} (hasCap : Capability → Bool)
    (api : ApiCall → V) : Option (FetchValue V) × List ApiCall :=
  if hasCap .CODEC_LED then
    (some (.simple (api .getCodecLedBrightness)), [.getCodecLedBrightness])
  else (none, [])

/-- `_fetch_display_brightness` from `coordinator.py`: gated on
`MAX_DISPLAY`. -/
def fetch_display_brightness {V : Type} (hasCap : Capability → Bool)
    (api : ApiCall → V) : Option (FetchValue V) × List ApiCall :=
  if hasCap .MAX_DISPLAY then
    (some (.simple (api .getDisplayBrightness)), [.getDisplayBrightness])
  else (none, [])

/-- `_fetch_eco_mode` from `coordinator.py`. -/
def fetch_eco_mode {V : Type} (hasCap : Capability → Bool)
    (api : ApiCall → V) : Option (FetchValue V) × List ApiCall :=
  if hasCap .ECO_MODE then
    (some (.simple (api .getEcoMode)), [.getEcoMode])
  else (none, [])

/-- C10: for every `VolumeInfo` value, `percent` returns `0` when the bounds
coincide and `(level - min_value) / (max_value - min_value)` otherwise, and
the division-by-zero checked variant always agrees with it, so evaluating
`percent` never divides by zero. -/
theorem C10_percent_never_divides_by_zero (v : VolumeInfo) :
    v.percentChecked = some v.percent ∧
    (v.max_value = v.min_value → v.percent = 0) ∧
    (v.max_value ≠ v.min_value →
      v.percent =
        ((v.level - v.min_value : ℤ) : ℚ) / ((v.max_value - v.min_value : ℤ) : ℚ)) := by
  unfold VolumeInfo.percent VolumeInfo.percentChecked qdivChecked
  by_cases h : v.max_value = v.min_value
  · simp [h]
  · have hne : (v.max_value : ℚ) - (v.min_value : ℚ) ≠ 0 :=
      sub_ne_zero.mpr (by exact_mod_cast h)
    simp [h, hne]

theorem C10_percent_never_divides_by_zero_witness :
    VolumeInfo.percentChecked ⟨50, false, 0, 100, 1 / 100⟩ =
      some (VolumeInfo.percent ⟨50, false, 0, 100, 1 / 100⟩) ∧
    VolumeInfo.percent ⟨50, false, 0, 100, 1 / 100⟩ = 1 / 2 ∧
    VolumeInfo.percent ⟨7, true, 3, 3, 1 / 100⟩ = 0 := by
  refine ⟨(C10_percent_never_divides_by_zero _).1, ?_,
    (C10_percent_never_divides_by_zero ⟨7, true, 3, 3, 1 / 100⟩).2.1 rfl⟩
  rw [(C10_percent_never_divides_by_zero ⟨50, false, 0, 100, 1 / 100⟩).2.2
    (by decide)]
  norm_num

/-- C8: each capability-gated fetcher of the coordinator (ambeo mode, night
mode, sound feedback, bluetooth pairing, logo, LED bar, subwoofer, voice
enhancement, codec LED, display brightness, eco mode) returns `None` and
performs no device-API call when the model lacks the corresponding
capability. -/
theorem C8_capability_gating {V : Type} (hasCap : Capability → Bool)
    (api : ApiCall → V) :
    (hasCap .AMBEO_MODE = false → fetch_ambeo_mode hasCap api = (none, [])) ∧
    (hasCap .NIGHT_MODE = false → fetch_night_mode hasCap api = (none, [])) ∧
    (hasCap .SOUND_FEEDBACK = false → fetch_sound_feedback hasCap api = (none, [])) ∧
    (hasCap .BLUETOOTH_PAIRING = false → fetch_bluetooth_pairing hasCap api = (none, [])) ∧
    (hasCap .AMBEO_LOGO = false → fetch_logo_brightness hasCap api = (none, [])) ∧
    (hasCap .LED_BAR = false → fetch_led_bar_brightness hasCap api = (none, [])) ∧
    (hasCap .SUBWOOFER = false → fetch_subwoofer hasCap api = (none, [])) ∧
    (hasCap .VOICE_ENHANCEMENT_TOGGLE = false → fetch_voice_enhancement hasCap api = (none, [])) ∧
    (hasCap .CODEC_LED = false → fetch_codec_led_brightness hasCap api = (none, [])) ∧
    (hasCap .MAX_DISPLAY = false → fetch_display_brightness hasCap api = (none, [])) ∧
    (hasCap .ECO_MODE = false → fetch_eco_mode hasCap api = (none, [])) := by
  refine ⟨fun h => ?_, fun h => ?_, fun h => ?_, fun h => ?_, fun h => ?_,
    fun h => ?_, fun h => ?_, fun h => ?_, fun h => ?_, fun h => ?_, fun h => ?_⟩
  · simp [fetch_ambeo_mode, h]
  · simp [fetch_night_mode, h]
  · simp [fetch_sound_feedback, h]
  · simp [fetch_bluetooth_pairing, h]
  · simp [fetch_logo_brightness, h]
  · simp [fetch_led_bar_brightness, h]
  · simp [fetch_subwoofer, h]
  · simp [fetch_voice_enhancement, h]
  · simp [fetch_codec_led_brightness, h]
  · simp [fetch_display_brightness, h]
  · simp [fetch_eco_mode, h]

theorem C8_capability_gating_witness :
    fetch_ambeo_mode (fun _ => false) (fun _ => (0 : ℤ)) = (none, []) ∧
    fetch_night_mode (fun _ => false) (fun _ => (0 : ℤ)) = (none, []) ∧
    fetch_sound_feedback (fun _ => false) (fun _ => (0 : ℤ)) = (none, []) ∧
    fetch_bluetooth_pairing (fun _ => false) (fun _ => (0 : ℤ)) = (none, []) ∧
    fetch_logo_brightness (fun _ => false) (fun _ => (0 : ℤ)) = (none, []) ∧
    fetch_led_bar_brightness (fun _ => false) (fun _ => (0 : ℤ)) = (none, []) ∧
    fetch_subwoofer (fun _ => false) (fun _ => (0 : ℤ)) = (none, []) ∧
    fetch_voice_enhancement (fun _ => false) (fun _ => (0 : ℤ)) = (none, []) ∧
    fetch_codec_led_brightness (fun _ => false) (fun _ => (0 : ℤ)) = (none, []) ∧
    fetch_display_brightness (fun _ => false) (fun _ => (0 : ℤ)) = (none, []) ∧
    fetch_eco_mode (fun _ => false) (fun _ => (0 : ℤ)) = (none, []) := by
  have h := C8_capability_gating (V := ℤ) (fun _ => false) (fun _ => (0 : ℤ))
  exact ⟨h.1 rfl, h.2.1 rfl, h.2.2.1 rfl, h.2.2.2.1 rfl, h.2.2.2.2.1 rfl,
    h.2.2.2.2.2.1 rfl, h.2.2.2.2.2.2.1 rfl, h.2.2.2.2.2.2.2.1 rfl,
    h.2.2.2.2.2.2.2.2.1 rfl, h.2.2.2.2.2.2.2.2.2.1 rfl,
    h.2.2.2.2.2.2.2.2.2.2 rfl⟩

theorem processResults_no_auth {V : Type} :
    ∀ ps : List (String × FetchResult V),
      (∀ p ∈ ps, (p.2).isAuthExc = false) →
      processResults ps = .ok (ps.map (fun p => (p.1, (p.2).toOption))) := by
  intro ps
  induction ps with
  | nil => intro _; rfl
  | cons p rest ih =>
      intro h
      obtain ⟨k, r⟩ := p
      cases r with
      | value v =>
          simp only [processResults, ih (fun q hq => h q (List.mem_cons_of_mem _ hq)),
            Except.map, List.map_cons, FetchResult.toOption]
      | exc e =>
          have he : e.isAmbeoAuthError = false := h (k, .exc e) (List.mem_cons_self _ _)
          simp only [processResults, he, Bool.false_eq_true, if_false,
            ih (fun q hq => h q (List.mem_cons_of_mem _ hq)), Except.map,
            List.map_cons, FetchResult.toOption]

theorem asyncUpdateData_no_auth {V : Type} (results : List (FetchResult V))
    (h : ∀ r ∈ results, r.isAuthExc = false) :
    asyncUpdateData results =
      .ok ((ambeoKeys.zip results).map (fun p => (p.1, (p.2).toOption))) := by
  have hz : ∀ p ∈ ambeoKeys.zip results, (p.2 : FetchResult V).isAuthExc = false := by
    intro p hp
    obtain ⟨k, r⟩ := p
    exact h r (List.of_mem_zip hp).2
  simp only [asyncUpdateData, processResults_no_auth _ hz]

/-- C9: when one fetch of a refresh raises an exception that is not
`AmbeoAuthError` and every other fetch succeeds, the refresh returns
normally, the failed fetch's key holds `None`, and every other key holds its
fetched value. -/
theorem C9_isolated_fetch_failure {V : Type} (l₁ l₂ : List (FetchResult V))
    (e : PyExc) (h1 : e.isAmbeoAuthError = false)
    (h2 : ∀ r ∈ l₁, ∃ v, r = FetchResult.value v)
    (h3 : ∀ r ∈ l₂, ∃ v, r = FetchResult.value v) :
    asyncUpdateData (l₁ ++ FetchResult.exc e :: l₂) =
      .ok ((ambeoKeys.zip (l₁ ++ FetchResult.exc e :: l₂)).map
        (fun p => (p.1, (p.2).toOption))) := by
  apply asyncUpdateData_no_auth
  intro r hr
  rcases List.mem_append.mp hr with hl | hc
  · obtain ⟨v, rfl⟩ := h2 r hl
    rfl
  · rcases List.mem_cons.mp hc with rfl | hl2
    · simpa [FetchResult.isAuthExc] using h1
    · obtain ⟨v, rfl⟩ := h3 r hl2
      rfl

theorem C9_isolated_fetch_failure_witness :
    asyncUpdateData
        [FetchResult.value (7 : ℤ), FetchResult.exc .ambeoConn,
         FetchResult.value (3 : ℤ)] =
      .ok [("volume", some (7 : ℤ)), ("mute", none), ("power_state", some 3)] := by
  exact (C9_isolated_fetch_failure [FetchResult.value (7 : ℤ)]
    [FetchResult.value (3 : ℤ)] .ambeoConn rfl
    (fun r hr => ⟨7, by simpa using hr⟩)
    (fun r hr => ⟨3, by simpa using hr⟩)).trans rfl

theorem processResults_error_is_auth {V : Type} :
    ∀ (ps : List (String × FetchResult V)) (e : PyExc),
      processResults ps = .error e → e = .configEntryAuthFailed := by
  intro ps
  induction ps with
  | nil => intro e he; exact absurd he (by simp [processResults])
  | cons p rest ih =>
      intro e he
      obtain ⟨k, r⟩ := p
      cases r with
      | value v =>
          simp only [processResults] at he
          cases hr : processResults rest with
          | ok d => rw [hr] at he; exact absurd he (by simp [Except.map])
          | error f =>
              rw [hr] at he
              simp only [Except.map] at he
              cases he
              exact ih _ hr
      | exc e2 =>
          simp only [processResults] at he
          by_cases ha : e2.isAmbeoAuthError
          · rw [if_pos ha] at he
            cases he
            rfl
          · rw [if_neg ha] at he
            cases hr : processResults rest with
            | ok d => rw [hr] at he; exact absurd he (by simp [Except.map])
            | error f =>
                rw [hr] at he
                simp only [Except.map] at he
                cases he
                exact ih _ hr

/-- C6 (code bug): on a refresh whose first fetch raised `AmbeoAuthError`,
`_async_update_data` raises `UpdateFailed`, not `ConfigEntryAuthFailed` — the
`raise ConfigEntryAuthFailed` inside the `try` body is caught by the
function's own trailing `except Exception` handler.  In fact no refresh can
ever propagate `ConfigEntryAuthFailed`. -/
theorem C6_auth_failure_swallowed :
    asyncUpdateData resultsAuthFailure = .error .updateFailed ∧
    ∀ results : List (FetchResult ℤ),
      asyncUpdateData results ≠ .error PyExc.configEntryAuthFailed := by
  constructor
  · rfl
  · intro results hcontra
    unfold asyncUpdateData at hcontra
    cases hr : processResults (ambeoKeys.zip results) with
    | ok d => rw [hr] at hcontra; exact absurd hcontra (by simp)
    | error e =>
        rw [hr] at hcontra
        have he := processResults_error_is_auth _ _ hr
        subst he
        simp [PyExc.isAmbeoAuthError, PyExc.isAmbeoConnError] at hcontra

/-- C5 (counterexample): the polling interval does not adapt to the observed
playback/power state — refreshing with the device playing and with the device
in standby leaves the same fixed 30-second interval, so there are no three
state-dependent polling intervals. -/
theorem C5_counterexample :
    (coordinatorRefresh .init resultsPlaying).map (fun c => c.update_interval) =
      .ok UPDATE_INTERVAL ∧
    (coordinatorRefresh .init resultsStandby).map (fun c => c.update_interval) =
      .ok UPDATE_INTERVAL ∧
    UPDATE_INTERVAL = 30 := ⟨rfl, rfl, rfl⟩

/-- C5 (amended): the coordinator polls at the single fixed interval
`UPDATE_INTERVAL = 30` seconds; no refresh ever changes the interval,
whatever device state the fetches observe. -/
theorem C5_fixed_interval {V : Type} (c : AmbeoDataUpdateCoordinator V)
    (results : List (FetchResult V)) :
    (coordinatorRefresh c results).map (fun x => x.update_interval) =
      (coordinatorRefresh c results).map (fun _ => c.update_interval) ∧
    (AmbeoDataUpdateCoordinator.init (V := V)).update_interval = UPDATE_INTERVAL ∧
    UPDATE_INTERVAL = 30 := by
  refine ⟨?_, rfl, rfl⟩
  unfold coordinatorRefresh
  cases asyncUpdateData results <;> rfl

theorem record_failure_fields (cb : CircuitBreaker) (t : ℚ) :
    (cb.record_failure t).failure_threshold = cb.failure_threshold ∧
    (cb.record_failure t).timeout_seconds = cb.timeout_seconds ∧
    (cb.record_failure t).failure_count = cb.failure_count + 1 ∧
    (cb.record_failure t).last_failure_time = some t := by
  unfold CircuitBreaker.record_failure
  by_cases h : cb.failure_threshold ≤ cb.failure_count + 1 <;> simp [h]

theorem recordFailures_spec :
    ∀ (ts : List ℚ) (cb : CircuitBreaker), ts ≠ [] →
      (cb.recordFailures ts).failure_threshold = cb.failure_threshold ∧
      (cb.recordFailures ts).timeout_seconds = cb.timeout_seconds ∧
      (cb.recordFailures ts).failure_count = cb.failure_count + ts.length ∧
      (cb.recordFailures ts).last_failure_time = ts.getLast? ∧
      (cb.failure_threshold ≤ cb.failure_count + ts.length →
        (cb.recordFailures ts).state = ConnectionState.error) := by
  intro ts
  induction ts with
  | nil => intro cb h; exact absurd rfl h
  | cons t rest ih =>
      intro cb _
      cases rest with
      | nil =>
          have hfold : cb.recordFailures [t] = cb.record_failure t := rfl
          rw [hfold]
          unfold CircuitBreaker.record_failure
          by_cases h : cb.failure_threshold ≤ cb.failure_count + 1 <;>
            simp [h]
      | cons r rs =>
          have hfold : cb.recordFailures (t :: r :: rs) =
              (cb.record_failure t).recordFailures (r :: rs) := rfl
          obtain ⟨hf1, ht1, hc1, _⟩ := record_failure_fields cb t
          obtain ⟨hf2, ht2, hc2, hl2, hs2⟩ :=
            ih (cb.record_failure t) (by simp)
          rw [hfold]
          refine ⟨hf2.trans hf1, ht2.trans ht1, ?_, ?_, ?_⟩
          · rw [hc2, hc1]
            simp only [List.length_cons]
            omega
          · rw [hl2, List.getLast?_cons_cons]
          · intro hth
            apply hs2
            rw [hf1, hc1]
            simp only [List.length_cons] at hth ⊢
            omega

/-- C2: after `failure_threshold` consecutive `record_failure` calls (from any
starting count, with no intervening success) the breaker is open, and a
`request` issued before the cool-down has elapsed since the last failure
raises `AmbeoCircuitBreakerError` with zero HTTP attempts, no back-off
sleeps, and untouched breaker and limiter state. -/
theorem C2_open_breaker_blocks_requests (cb : CircuitBreaker) (ts : List ℚ)
    (now tl : ℚ) (o : ℕ → AttemptOutcome) (mr : ℕ) (d : ℚ)
    (rl : RateLimiter) (retry : Bool)
    (hth : 1 ≤ cb.failure_threshold)
    (hlen : ts.length = cb.failure_threshold)
    (hlast : ts.getLast? = some tl)
    (hcool : now - tl < cb.timeout_seconds) :
    ((cb.recordFailures ts).is_open now).1 = true ∧
    AmbeoApiClient.request o mr d (cb.recordFailures ts) rl retry now =
      some { outcome := .error (.circuitBreaker (cb.recordFailures ts).failure_count),
             attempts := 0, sleeps := [],
             breaker := cb.recordFailures ts, limiter := rl } := by
  have hne : ts ≠ [] := by
    intro h
    rw [h] at hlen
    simp at hlen
    omega
  obtain ⟨hf, htm, hc, hl, hs⟩ := recordFailures_spec ts cb hne
  have hstate : (cb.recordFailures ts).state = ConnectionState.error := by
    apply hs
    omega
  have hio : (cb.recordFailures ts).is_open now = (true, cb.recordFailures ts) := by
    unfold CircuitBreaker.is_open
    rw [hstate, hl, hlast]
    have hn : ¬ (cb.recordFailures ts).timeout_seconds ≤ now - tl := by
      rw [htm]
      exact not_le.mpr hcool
    simp [hn]
  constructor
  · rw [hio]
  · simp only [AmbeoApiClient.request, hio]
    simp

theorem C2_open_breaker_blocks_requests_witness :
    ((({} : CircuitBreaker).recordFailures [0, 0, 0, 0, 0]).is_open 60).1 = true ∧
    AmbeoApiClient.request (fun _ => .success) 3 (1 / 2)
        (({} : CircuitBreaker).recordFailures [0, 0, 0, 0, 0]) {} true 60 =
      some { outcome := .error (.circuitBreaker
               (({} : CircuitBreaker).recordFailures [0, 0, 0, 0, 0]).failure_count),
             attempts := 0, sleeps := [],
             breaker := ({} : CircuitBreaker).recordFailures [0, 0, 0, 0, 0],
             limiter := {} } :=
  C2_open_breaker_blocks_requests {} [0, 0, 0, 0, 0] 60 0 (fun _ => .success)
    3 (1 / 2) {} true (by decide) (by with_unfolding_all decide) rfl
    (by with_unfolding_all decide)

/-- C3 (counterexample): with the default breaker (threshold 5, timeout 120),
five failures at instant 0 open the circuit; at instant 120 the cool-down has
elapsed and the trial request is allowed, but a single failure of that trial
does not re-open the circuit — `is_open` reset the failure count to zero, so
the breaker stays closed, contradicting the claimed half-open re-opening. -/
theorem C3_counterexample :
    ((({} : CircuitBreaker).recordFailures [0, 0, 0, 0, 0]).is_open 60).1 = true ∧
    ((({} : CircuitBreaker).recordFailures [0, 0, 0, 0, 0]).is_open 120).1 = false ∧
    (((((({} : CircuitBreaker).recordFailures [0, 0, 0, 0, 0]).is_open 120).2
        ).record_failure 120).is_open 121).1 = false ∧
    ((((({} : CircuitBreaker).recordFailures [0, 0, 0, 0, 0]).is_open 120).2
        ).record_failure 120).state ≠ ConnectionState.error := by
  with_unfolding_all decide

/-- C3 (amended): once the cool-down has elapsed since the last failure, the
`is_open` read closes the circuit completely — failure count reset to zero —
so the trial request is allowed through; a success leaves it closed, and a
single failure of the trial re-opens the circuit only in the degenerate case
`failure_threshold ≤ 1`: otherwise `failure_threshold` new consecutive
failures are required. -/
theorem C3_timeout_fully_closes (cb : CircuitBreaker) (tf now t2 : ℚ)
    (hstate : cb.state = ConnectionState.error)
    (hlast : cb.last_failure_time = some tf)
    (helapsed : cb.timeout_seconds ≤ now - tf) :
    (cb.is_open now).1 = false ∧
    ((cb.is_open now).2).failure_count = 0 ∧
    ((cb.is_open now).2).state = ConnectionState.connected ∧
    ((cb.is_open now).2).record_success = (cb.is_open now).2 ∧
    ((((cb.is_open now).2).record_failure t2).state = ConnectionState.error ↔
      cb.failure_threshold ≤ 1) := by
  have hio : cb.is_open now =
      (false, { cb with state := .connected, failure_count := 0,
                        last_failure_time := none }) := by
    unfold CircuitBreaker.is_open
    rw [hstate, hlast]
    simp [helapsed]
  rw [hio]
  refine ⟨rfl, rfl, rfl, rfl, ?_⟩
  unfold CircuitBreaker.record_failure
  by_cases h : cb.failure_threshold ≤ 1 <;> simp [h]

theorem C3_timeout_fully_closes_witness :
    ((⟨5, 120, 5, some 0, .error⟩ : CircuitBreaker).is_open 120).1 = false ∧
    (((⟨5, 120, 5, some 0, .error⟩ : CircuitBreaker).is_open 120).2).failure_count = 0 ∧
    (((⟨5, 120, 5, some 0, .error⟩ : CircuitBreaker).is_open 120).2).state =
      ConnectionState.connected ∧
    (((⟨5, 120, 5, some 0, .error⟩ : CircuitBreaker).is_open 120).2).record_success =
      ((⟨5, 120, 5, some 0, .error⟩ : CircuitBreaker).is_open 120).2 ∧
    (((((⟨5, 120, 5, some 0, .error⟩ : CircuitBreaker).is_open 120).2).record_failure
          121).state = ConnectionState.error ↔
      (⟨5, 120, 5, some 0, .error⟩ : CircuitBreaker).failure_threshold ≤ 1) :=
  C3_timeout_fully_closes ⟨5, 120, 5, some 0, .error⟩ 0 120 121 rfl rfl
    (by with_unfolding_all decide)

theorem applyEvents_stays_closed :
    ∀ (evs : List BreakerEvent) (cb : CircuitBreaker) (k : ℕ),
      cb.state ≠ ConnectionState.error → cb.failure_count ≤ k →
      failRunsBelow cb.failure_threshold evs k →
      (cb.applyEvents evs).state ≠ ConnectionState.error := by
  intro evs
  induction evs with
  | nil =>
      intro cb k h1 _ _
      simpa [CircuitBreaker.applyEvents] using h1
  | cons e rest ih =>
      intro cb k h1 h2 h3
      cases e with
      | fail t =>
          obtain ⟨hk, hrest⟩ := h3
          have hlt : ¬ cb.failure_threshold ≤ cb.failure_count + 1 := by omega
          have hfold : cb.applyEvents (.fail t :: rest) =
              (cb.record_failure t).applyEvents rest := rfl
          rw [hfold]
          apply ih (cb.record_failure t) (k + 1)
          · unfold CircuitBreaker.record_failure
            simpa [hlt] using h1
          · unfold CircuitBreaker.record_failure
            simp [hlt]
            omega
          · have hth : (cb.record_failure t).failure_threshold =
                cb.failure_threshold := (record_failure_fields cb t).1
            rw [hth]
            exact hrest
      | success =>
          have hfold : cb.applyEvents (.success :: rest) =
              cb.record_success.applyEvents rest := rfl
          rw [hfold]
          apply ih cb.record_success 0
          · unfold CircuitBreaker.record_success
            by_cases h : 0 < cb.failure_count <;> simp [h]
            exact h1
          · unfold CircuitBreaker.record_success
            by_cases h : 0 < cb.failure_count <;> simp [h]
            omega
          · have hth : cb.record_success.failure_threshold =
                cb.failure_threshold := by
              unfold CircuitBreaker.record_success
              by_cases h : 0 < cb.failure_count <;> simp [h]
            rw [hth]
            exact h3

/-- C7: a single `record_success` resets the consecutive-failure count to
zero and leaves the breaker closed (for any state the code can actually
reach, i.e. where an open state implies at least one recorded failure), and
afterwards no event sequence whose maximal runs of consecutive failures stay
below `failure_threshold` can ever open the breaker: it opens on strictly
consecutive failures only. -/
theorem C7_success_resets_failure_count (cb : CircuitBreaker)
    (evs : List BreakerEvent) (now : ℚ)
    (hok : cb.state = ConnectionState.error → 1 ≤ cb.failure_count) :
    cb.record_success.failure_count = 0 ∧
    cb.record_success.state ≠ ConnectionState.error ∧
    (cb.record_success.is_open now).1 = false ∧
    (FailRunsBelow cb.failure_threshold evs →
      (cb.record_success.applyEvents evs).state ≠ ConnectionState.error) := by
  have hcount : cb.record_success.failure_count = 0 := by
    unfold CircuitBreaker.record_success
    by_cases h : 0 < cb.failure_count <;> simp [h]
    omega
  have hstate : cb.record_success.state ≠ ConnectionState.error := by
    unfold CircuitBreaker.record_success
    by_cases h : 0 < cb.failure_count <;> simp [h]
    intro he
    have := hok he
    omega
  have hth : cb.record_success.failure_threshold = cb.failure_threshold := by
    unfold CircuitBreaker.record_success
    by_cases h : 0 < cb.failure_count <;> simp [h]
  refine ⟨hcount, hstate, ?_, ?_⟩
  · unfold CircuitBreaker.is_open
    simp [hstate]
  · intro hruns
    apply applyEvents_stays_closed evs cb.record_success 0 hstate (by omega)
    rw [hth]
    exact hruns

theorem C7_success_resets_failure_count_witness :
    (⟨5, 120, 2, some 0, .connected⟩ : CircuitBreaker).record_success.failure_count = 0 ∧
    (⟨5, 120, 2, some 0, .connected⟩ : CircuitBreaker).record_success.state ≠
      ConnectionState.error ∧
    ((⟨5, 120, 2, some 0, .connected⟩ : CircuitBreaker).record_success.is_open 7).1 = false ∧
    ((⟨5, 120, 2, some 0, .connected⟩ : CircuitBreaker).record_success.applyEvents
        [.fail 1, .success, .fail 2, .fail 3]).state ≠ ConnectionState.error := by
  have h := C7_success_resets_failure_count ⟨5, 120, 2, some 0, .connected⟩
    [.fail 1, .success, .fail 2, .fail 3] 7 (by decide)
  exact ⟨h.1, h.2.1, h.2.2.1,
    h.2.2.2 ⟨by norm_num, by norm_num, by norm_num, trivial⟩⟩

theorem requestGo_nil (o : ℕ → AttemptOutcome) (d : ℚ) (retries : ℕ)
    (now : ℚ) (cb : CircuitBreaker) (rl : RateLimiter)
    (lastExc : Option ReqError) (attempts : ℕ) (sleeps : List ℚ) :
    requestGo o d retries now cb rl lastExc attempts sleeps [] =
      { outcome := .error (lastExc.getD .noRetries), attempts := attempts,
        sleeps := sleeps, breaker := cb.record_failure now, limiter := rl } :=
  rfl

theorem requestGo_cons_timeout (o : ℕ → AttemptOutcome) (d : ℚ) (retries : ℕ)
    (now : ℚ) (cb : CircuitBreaker) (rl : RateLimiter)
    (lastExc : Option ReqError) (attempts : ℕ) (sleeps : List ℚ) (i : ℕ)
    (rest : List ℕ) (hc : o i = .timeoutErr) :
    requestGo o d retries now cb rl lastExc attempts sleeps (i :: rest) =
      requestGo o d retries now cb rl (some (.timeout i)) (attempts + 1)
        (if i < retries - 1 then sleeps ++ [d * 2 ^ i] else sleeps) rest := by
  simp only [requestGo, hc]

theorem requestGo_cons_conn (o : ℕ → AttemptOutcome) (d : ℚ) (retries : ℕ)
    (now : ℚ) (cb : CircuitBreaker) (rl : RateLimiter)
    (lastExc : Option ReqError) (attempts : ℕ) (sleeps : List ℚ) (i : ℕ)
    (rest : List ℕ) (hc : o i = .connErr) :
    requestGo o d retries now cb rl lastExc attempts sleeps (i :: rest) =
      requestGo o d retries now cb rl (some (.connection i)) (attempts + 1)
        (if i < retries - 1 then sleeps ++ [d * 2 ^ i] else sleeps) rest := by
  simp only [requestGo, hc]

theorem requestGo_all_fail (o : ℕ → AttemptOutcome) (d : ℚ) (retries : ℕ)
    (now : ℚ) (cb : CircuitBreaker) (rl : RateLimiter) :
    ∀ (r i attempts : ℕ) (sleeps : List ℚ) (lastExc : Option ReqError),
      1 ≤ r → i + r = retries →
      (∀ k, i ≤ k → k < retries → o k = .timeoutErr ∨ o k = .connErr) →
      requestGo o d retries now cb rl lastExc attempts sleeps (List.range' i r) =
        { outcome := .error (failExc (o (retries - 1)) (retries - 1)),
          attempts := attempts + r,
          sleeps := sleeps ++ (List.range' i (r - 1)).map (fun k => d * 2 ^ k),
          breaker := cb.record_failure now, limiter := rl } := by
  intro r
  induction r with
  | zero => intro i attempts sleeps lastExc h1; omega
  | succ r' ih =>
      intro i attempts sleeps lastExc _ h2 hfail
      rw [List.range'_succ i r' 1]
      cases r' with
      | zero =>
          have hi : retries - 1 = i := by omega
          have hlt : ¬ i < retries - 1 := by omega
          rcases hfail i (le_refl i) (by omega) with hc | hc
          · rw [requestGo_cons_timeout o d retries now cb rl lastExc attempts
              sleeps i _ hc, if_neg hlt]
            simp [requestGo_nil, hi, hc, failExc]
          · rw [requestGo_cons_conn o d retries now cb rl lastExc attempts
              sleeps i _ hc, if_neg hlt]
            simp [requestGo_nil, hi, hc, failExc]
      | succ r'' =>
          have hlt : i < retries - 1 := by omega
          have hrec :
              ∀ e : ReqError,
                requestGo o d retries now cb rl (some e) (attempts + 1)
                    (sleeps ++ [d * 2 ^ i]) (List.range' (i + 1) (r'' + 1)) =
                  { outcome := .error (failExc (o (retries - 1)) (retries - 1)),
                    attempts := attempts + 1 + (r'' + 1),
                    sleeps := (sleeps ++ [d * 2 ^ i]) ++
                      (List.range' (i + 1) (r'' + 1 - 1)).map (fun k => d * 2 ^ k),
                    breaker := cb.record_failure now, limiter := rl } :=
            fun e => ih (i + 1) (attempts + 1) (sleeps ++ [d * 2 ^ i]) (some e)
              (by omega) (by omega) (fun k hk1 hk2 => hfail k (by omega) hk2)
          rcases hfail i (le_refl i) (by omega) with hc | hc
          · rw [requestGo_cons_timeout o d retries now cb rl lastExc attempts
              sleeps i _ hc, if_pos hlt, hrec]
            simp only [ReqResult.mk.injEq, Nat.add_sub_cancel,
              List.range'_succ i r'' 1, List.map_cons, List.append_assoc,
              List.singleton_append, true_and, and_true]
            omega
          · rw [requestGo_cons_conn o d retries now cb rl lastExc attempts
              sleeps i _ hc, if_pos hlt, hrec]
            simp only [ReqResult.mk.injEq, Nat.add_sub_cancel,
              List.range'_succ i r'' 1, List.map_cons, List.append_assoc,
              List.singleton_append, true_and, and_true]
            omega

/-- C4: with `retry=True` and every attempt failing with a timeout or
connection error, `request` performs exactly `max_retries` HTTP attempts,
sleeps `retry_delay * 2 ** k` after the k-th failed attempt for
`k = 0 .. max_retries - 2`, records exactly one circuit-breaker failure, and
raises the typed exception built from the last attempt (timeout / connection
with `retry_count = max_retries - 1`); with `retry=False` exactly one attempt
is made and no back-off sleep happens. -/
theorem C4_retry_with_backoff (o : ℕ → AttemptOutcome) (mr : ℕ) (d : ℚ)
    (cb : CircuitBreaker) (rl rl1 : RateLimiter) (ret now : ℚ)
    (hopen : (cb.is_open now).1 = false)
    (hacq : rl.acquire now = some (rl1, ret))
    (hmr : 1 ≤ mr)
    (hfail : ∀ k, k < mr → o k = .timeoutErr ∨ o k = .connErr) :
    AmbeoApiClient.request o mr d cb rl true now =
      some { outcome := .error (failExc (o (mr - 1)) (mr - 1)), attempts := mr,
             sleeps := (List.range (mr - 1)).map (fun k => d * 2 ^ k),
             breaker := ((cb.is_open now).2).record_failure ret,
             limiter := rl1 } ∧
    (o (mr - 1) = .timeoutErr → failExc (o (mr - 1)) (mr - 1) = .timeout (mr - 1)) ∧
    (o (mr - 1) = .connErr → failExc (o (mr - 1)) (mr - 1) = .connection (mr - 1)) ∧
    AmbeoApiClient.request o mr d cb rl false now =
      some { outcome := .error (failExc (o 0) 0), attempts := 1, sleeps := [],
             breaker := ((cb.is_open now).2).record_failure ret,
             limiter := rl1 } := by
  refine ⟨?_, fun h => by rw [h]; rfl, fun h => by rw [h]; rfl, ?_⟩
  · simp only [AmbeoApiClient.request, hopen, Bool.false_eq_true, if_false,
      hacq, if_true]
    rw [List.range_eq_range' mr,
      requestGo_all_fail o d mr ret ((cb.is_open now).2) rl1 mr 0 0 [] none hmr
        (by omega) (fun k _ hk => hfail k hk)]
    simp [List.range_eq_range']
  · simp only [AmbeoApiClient.request, hopen, Bool.false_eq_true, if_false,
      hacq]
    rw [List.range_eq_range' 1,
      requestGo_all_fail o d 1 ret ((cb.is_open now).2) rl1 1 0 0 [] none
        (le_refl 1) (by omega) (fun k _ hk => hfail k (by omega))]
    simp

theorem C4_retry_with_backoff_witness :
    AmbeoApiClient.request (fun _ => .timeoutErr) 3 1 {} {} true 0 =
      some { outcome := .error (failExc ((fun _ => AttemptOutcome.timeoutErr) (3 - 1)) (3 - 1)),
             attempts := 3,
             sleeps := (List.range (3 - 1)).map (fun k => (1 : ℚ) * 2 ^ k),
             breaker := ((({} : CircuitBreaker).is_open 0).2).record_failure 0,
             limiter := ⟨10, 1, [0]⟩ } ∧
    ((fun _ => AttemptOutcome.timeoutErr) (3 - 1) = .timeoutErr →
      failExc ((fun _ => AttemptOutcome.timeoutErr) (3 - 1)) (3 - 1) = .timeout (3 - 1)) ∧
    ((fun _ => AttemptOutcome.timeoutErr) (3 - 1) = .connErr →
      failExc ((fun _ => AttemptOutcome.timeoutErr) (3 - 1)) (3 - 1) = .connection (3 - 1)) ∧
    AmbeoApiClient.request (fun _ => .timeoutErr) 3 1 {} {} false 0 =
      some { outcome := .error (failExc ((fun _ => AttemptOutcome.timeoutErr) 0) 0),
             attempts := 1, sleeps := [],
             breaker := ((({} : CircuitBreaker).is_open 0).2).record_failure 0,
             limiter := ⟨10, 1, [0]⟩ } :=
  C4_retry_with_backoff (fun _ => .timeoutErr) 3 1 {} {} ⟨10, 1, [0]⟩ 0 0
    rfl rfl (by omega) (fun k _ => Or.inl rfl)

theorem mem_dropWhile_cutoff_ge (c : ℚ) :
    ∀ l : List ℚ, l.Pairwise (· ≤ ·) →
      ∀ x ∈ l.dropWhile (fun t => decide (t < c)), c ≤ x := by
  intro l
  induction l with
  | nil => intro _ x hx; simp [List.dropWhile] at hx
  | cons a t ih =>
      intro hs x hx
      rw [List.dropWhile_cons] at hx
      by_cases ha : a < c
      · rw [if_pos (by simpa using ha)] at hx
        exact ih (List.pairwise_cons.mp hs).2 x hx
      · rw [if_neg (by simpa using ha)] at hx
        rcases List.mem_cons.mp hx with rfl | hxt
        · exact not_lt.mp ha
        · exact le_trans (not_lt.mp ha) (List.rel_of_pairwise_cons hs hxt)

theorem acquire_below_cap (rl : RateLimiter) (now : ℚ)
    (h : ¬ rl.max_calls ≤
      (rl.timestamps.dropWhile
        (fun t => decide (t < now - rl.period_seconds))).length) :
    rl.acquire now = some
      ({ rl with
          timestamps := rl.timestamps.dropWhile (fun t => decide (t < now - rl.period_seconds)) ++ [now] },
       now) := by
  simp only [RateLimiter.acquire, if_neg h]

theorem acquire_full_wait (rl : RateLimiter) (now oldest : ℚ) (tail : List ℚ)
    (hd : rl.timestamps.dropWhile
        (fun t => decide (t < now - rl.period_seconds)) = oldest :: tail)
    (hfull : rl.max_calls ≤ (oldest :: tail).length)
    (hw : now < oldest + rl.period_seconds) :
    rl.acquire now = some
      ({ rl with
          timestamps := (oldest :: tail).dropWhile (fun t => decide (t < oldest)) ++ [oldest + rl.period_seconds] },
       oldest + rl.period_seconds) := by
  have hw' : 0 < oldest + rl.period_seconds - now := by linarith
  have h2 : now + (oldest + rl.period_seconds - now) =
      oldest + rl.period_seconds := by ring
  simp only [RateLimiter.acquire, hd, if_pos hfull, if_pos hw', h2,
    add_sub_cancel_right]

theorem acquire_full_nowait (rl : RateLimiter) (now oldest : ℚ)
    (tail : List ℚ)
    (hd : rl.timestamps.dropWhile
        (fun t => decide (t < now - rl.period_seconds)) = oldest :: tail)
    (hfull : rl.max_calls ≤ (oldest :: tail).length)
    (hw : ¬ now < oldest + rl.period_seconds) :
    rl.acquire now =
      some ({ rl with timestamps := (oldest :: tail) ++ [now] }, now) := by
  have hw' : ¬ 0 < oldest + rl.period_seconds - now := by
    intro hcon
    exact hw (by linarith)
  simp only [RateLimiter.acquire, hd, if_pos hfull, if_neg hw']

theorem acquire_step (rl : RateLimiter) (ret now : ℚ)
    (hmc : 1 ≤ rl.max_calls) (hp : 0 < rl.period_seconds)
    (hInv : rl.Inv ret) (hlt : ret < now) :
    ∃ s : RateLimiter × ℚ, rl.acquire now = some s ∧ s.1.Inv s.2 ∧
      now ≤ s.2 ∧ s.1.max_calls = rl.max_calls ∧
      s.1.period_seconds = rl.period_seconds := by
  obtain ⟨hsort, hle, hcount⟩ := hInv
  have hsub : List.Sublist
      (rl.timestamps.dropWhile (fun t => decide (t < now - rl.period_seconds)))
      rl.timestamps := List.dropWhile_sublist _
  have hsort1 : (rl.timestamps.dropWhile
      (fun t => decide (t < now - rl.period_seconds))).Pairwise (· ≤ ·) :=
    hsort.sublist hsub
  have hmem1 : ∀ x ∈ rl.timestamps.dropWhile
      (fun t => decide (t < now - rl.period_seconds)), x ≤ ret :=
    fun x hx => hle x (hsub.subset hx)
  have hge : ∀ x ∈ rl.timestamps.dropWhile
      (fun t => decide (t < now - rl.period_seconds)),
      now - rl.period_seconds ≤ x :=
    mem_dropWhile_cutoff_ge _ _ hsort
  have hlen1 : (rl.timestamps.dropWhile
      (fun t => decide (t < now - rl.period_seconds))).length ≤
      rl.max_calls := by
    have h1 : (rl.timestamps.dropWhile
        (fun t => decide (t < now - rl.period_seconds))).countP
          (fun t => decide (ret - rl.period_seconds < t)) =
        (rl.timestamps.dropWhile
          (fun t => decide (t < now - rl.period_seconds))).length :=
      List.countP_eq_length.mpr (fun a ha => by
        have := hge a ha
        simp only [decide_eq_true_eq]
        linarith)
    calc (rl.timestamps.dropWhile
        (fun t => decide (t < now - rl.period_seconds))).length
        = _ := h1.symm
      _ ≤ rl.timestamps.countP (fun t => decide (ret - rl.period_seconds < t)) :=
          hsub.countP_le _
      _ ≤ rl.max_calls := hcount
  by_cases hfull : rl.max_calls ≤ (rl.timestamps.dropWhile
      (fun t => decide (t < now - rl.period_seconds))).length
  · cases hts : rl.timestamps.dropWhile
        (fun t => decide (t < now - rl.period_seconds)) with
    | nil =>
        rw [hts] at hfull
        simp at hfull
        omega
    | cons oldest tail =>
        rw [hts] at hsort1 hmem1 hge hlen1 hfull
        have holdge : now - rl.period_seconds ≤ oldest :=
          hge oldest (List.mem_cons_self _ _)
        by_cases hw : now < oldest + rl.period_seconds
        · have hacq := acquire_full_wait rl now oldest tail hts hfull hw
          have hdw : (oldest :: tail).dropWhile
              (fun t => decide (t < oldest)) = oldest :: tail := by
            rw [List.dropWhile_cons, if_neg (by simp)]
          rw [hdw] at hacq
          refine ⟨_, hacq, ⟨?_, ?_, ?_⟩, le_of_lt hw, rfl, rfl⟩
          · dsimp only
            apply List.pairwise_append.mpr
            refine ⟨hsort1, List.pairwise_singleton _ _, ?_⟩
            intro a ha b hb
            simp only [List.mem_singleton] at hb
            subst hb
            have := hmem1 a ha
            linarith
          · dsimp only
            intro x hx
            rcases List.mem_append.mp hx with hx1 | hx2
            · have := hmem1 x hx1
              linarith
            · simp only [List.mem_singleton] at hx2
              subst hx2
              exact le_refl _
          · dsimp only
            have hlt2 : oldest < oldest + rl.period_seconds := by linarith
            have hct : tail.countP (fun t => decide (oldest < t)) ≤
                tail.length := List.countP_le_length _
            simp only [RateLimiter.current_count, add_sub_cancel_right,
              List.countP_append, List.countP_cons, List.countP_nil,
              decide_eq_true_eq, if_pos hlt2, if_neg (lt_irrefl oldest)]
            simp only [List.length_cons] at hlen1 hfull
            omega
        · have hacq := acquire_full_nowait rl now oldest tail hts hfull hw
          have holdeq : oldest = now - rl.period_seconds := by
            have h1 : oldest + rl.period_seconds ≤ now := not_lt.mp hw
            linarith
          refine ⟨_, hacq, ⟨?_, ?_, ?_⟩, le_refl now, rfl, rfl⟩
          · dsimp only
            apply List.pairwise_append.mpr
            refine ⟨hsort1, List.pairwise_singleton _ _, ?_⟩
            intro a ha b hb
            simp only [List.mem_singleton] at hb
            subst hb
            have := hmem1 a ha
            linarith
          · dsimp only
            intro x hx
            rcases List.mem_append.mp hx with hx1 | hx2
            · have := hmem1 x hx1
              linarith
            · simp only [List.mem_singleton] at hx2
              subst hx2
              exact le_refl _
          · dsimp only
            have hlt2 : now - rl.period_seconds < now := by linarith
            have hct : tail.countP
                (fun t => decide (now - rl.period_seconds < t)) ≤
                tail.length := List.countP_le_length _
            have hnotlt : ¬ now - rl.period_seconds < oldest := by
              rw [holdeq]
              exact lt_irrefl _
            simp only [RateLimiter.current_count, List.countP_append,
              List.countP_cons, List.countP_nil, decide_eq_true_eq,
              if_pos hlt2, if_neg hnotlt]
            simp only [List.length_cons] at hlen1 hfull
            omega
  · have hacq := acquire_below_cap rl now hfull
    refine ⟨_, hacq, ⟨?_, ?_, ?_⟩, le_refl now, rfl, rfl⟩
    · dsimp only
      apply List.pairwise_append.mpr
      refine ⟨hsort1, List.pairwise_singleton _ _, ?_⟩
      intro a ha b hb
      simp only [List.mem_singleton] at hb
      subst hb
      have := hmem1 a ha
      linarith
    · dsimp only
      intro x hx
      rcases List.mem_append.mp hx with hx1 | hx2
      · have := hmem1 x hx1
        linarith
      · simp only [List.mem_singleton] at hx2
        subst hx2
        exact le_refl _
    · dsimp only
      have hc1 : (rl.timestamps.dropWhile
          (fun t => decide (t < now - rl.period_seconds))).countP
            (fun t => decide (now - rl.period_seconds < t)) ≤
          (rl.timestamps.dropWhile
            (fun t => decide (t < now - rl.period_seconds))).length :=
        List.countP_le_length _
      have hlt2 : now - rl.period_seconds < now := by linarith
      simp only [RateLimiter.current_count, List.countP_append,
        List.countP_cons, List.countP_nil, decide_eq_true_eq, if_pos hlt2]
      omega

theorem acquiresOK_of_callsValid :
    ∀ (times : List ℚ) (rl : RateLimiter) (ret : ℚ),
      1 ≤ rl.max_calls → 0 < rl.period_seconds → rl.Inv ret →
      RateLimiter.CallsValid rl ret times → RateLimiter.AcquiresOK rl times := by
  intro times
  induction times with
  | nil => intro rl ret _ _ _ _; trivial
  | cons t rest ih =>
      intro rl ret hmc hp hInv hcv
      obtain ⟨hlt, hcont⟩ := hcv
      obtain ⟨s, hacq, hInv2, _, hmax, hper⟩ :=
        acquire_step rl ret t hmc hp hInv hlt
      exact ⟨s, hacq, hInv2.2.2,
        ih s.1 s.2 (by rw [hmax]; exact hmc) (by rw [hper]; exact hp) hInv2
          (hcont s hacq)⟩

/-- C1 (amended): starting from a fresh limiter, for every sequence of
`acquire` calls whose instants strictly increase past each previous return
(a strictly monotonic clock), every call succeeds — a full window delays the
call, it is never rejected with an error — and at the instant each `acquire`
returns at most `max_calls` timestamps lie inside the trailing
`period_seconds` window; moreover a call that finds the window full (with the
oldest timestamp not yet expired) returns exactly when the oldest timestamp
leaves the window, at `oldest + period_seconds`. -/
theorem C1_rate_limiter_sliding_window (mc : ℕ) (p t0 : ℚ) (times : List ℚ)
    (hmc : 1 ≤ mc) (hp : 0 < p)
    (hvalid : RateLimiter.CallsValid ⟨mc, p, []⟩ t0 times) :
    RateLimiter.AcquiresOK ⟨mc, p, []⟩ times ∧
    ∀ (rl : RateLimiter) (now oldest : ℚ) (tail : List ℚ),
      rl.timestamps.dropWhile (fun t => decide (t < now - rl.period_seconds)) =
        oldest :: tail →
      rl.max_calls ≤ (oldest :: tail).length →
      now < oldest + rl.period_seconds →
      (rl.acquire now).map (fun s => s.2) =
        some (oldest + rl.period_seconds) := by
  constructor
  · apply acquiresOK_of_callsValid times ⟨mc, p, []⟩ t0 hmc hp ?_ hvalid
    exact ⟨List.Pairwise.nil, by simp, by simp [RateLimiter.current_count]⟩
  · intro rl now oldest tail hd hfull hw
    rw [acquire_full_wait rl now oldest tail hd hfull hw]
    rfl

theorem C1_rate_limiter_sliding_window_witness :
    RateLimiter.AcquiresOK ⟨1, 1, []⟩ [0, 2] := by
  have hstep : RateLimiter.acquire ⟨1, 1, []⟩ 0 =
      some (⟨1, 1, [0]⟩, (0 : ℚ)) := by
    with_unfolding_all rfl
  have hv : RateLimiter.CallsValid ⟨1, 1, []⟩ (-1) [0, 2] := by
    refine ⟨by norm_num, fun s hs => ?_⟩
    rw [hstep] at hs
    have hs' : s = (⟨1, 1, [0]⟩, (0 : ℚ)) := (Option.some.inj hs).symm
    subst hs'
    exact ⟨by norm_num, fun s2 hs2 => trivial⟩
  exact (C1_rate_limiter_sliding_window 1 1 (-1) [0, 2] (le_refl 1)
    (by norm_num) hv).1

/-- C1 (counterexample): the claim as stated fails for boundary-exact
simultaneous calls.  With `max_calls = 2`, `period_seconds = 1` and calls at
instants `0, 0, 0, 1, 1` — each instant is ≥ the instant the previous
`acquire` returned (the third call sleeps until instant 1), as a monotonic
clock permits — the final `acquire` returns at instant 1 with three
timestamps strictly inside the trailing 1-second window, exceeding
`max_calls`: the stale front timestamp `0` equals the cutoff exactly, so the
purge (`< cutoff`) keeps it and the full-window wait computes to zero. -/
theorem C1_counterexample :
    RateLimiter.acquire ⟨2, 1, []⟩ 0 = some (⟨2, 1, [0]⟩, 0) ∧
    RateLimiter.acquire ⟨2, 1, [0]⟩ 0 = some (⟨2, 1, [0, 0]⟩, 0) ∧
    RateLimiter.acquire ⟨2, 1, [0, 0]⟩ 0 = some (⟨2, 1, [0, 0, 1]⟩, 1) ∧
    RateLimiter.acquire ⟨2, 1, [0, 0, 1]⟩ 1 = some (⟨2, 1, [0, 0, 1, 1]⟩, 1) ∧
    RateLimiter.acquire ⟨2, 1, [0, 0, 1, 1]⟩ 1 =
      some (⟨2, 1, [0, 0, 1, 1, 1]⟩, 1) ∧
    RateLimiter.current_count ⟨2, 1, [0, 0, 1, 1, 1]⟩ 1 = 3 ∧
    (⟨2, 1, [0, 0, 1, 1, 1]⟩ : RateLimiter).max_calls <
      RateLimiter.current_count ⟨2, 1, [0, 0, 1, 1, 1]⟩ 1 := by
  with_unfolding_all decide

end Ambeo
